import Mathlib

/-!
Verification development for the batchflow repository fragment.

The visible sources are:
* `.github/workflows/pr.yml` — two GitHub Actions workflow documents
  (a pull-request workflow named `PR` and a push-triggered workflow
  named `status`), embedded below as data together with the step
  execution semantics of GitHub Actions jobs;
* `examples/tutorials/research/05_update_domain_in_research.ipynb` —
  a tutorial notebook driving the library's Research subsystem.  The
  Research/Option/domain implementation itself is not part of the
  visible sources, so those parts are modelled from the spec, as
  marked on each such definition.
-/

/-! ## GitHub Actions step and job semantics -/

/-- The `if:` condition of a workflow step: the implicit default (run only
when no earlier step failed), `always()`, `success()`, or `failure()`. -/
inductive StepCond where
  | dflt
  | alwaysCond
  | successCond
  | failureCond
deriving DecidableEq, Repr

/-- One step of a job: its display name, its `if:` condition, the shell
command of its `run:` key (or, for `uses:` steps, the action reference),
and the `args` input when present (the Slack steps). -/
structure Step where
  name : String
  cond : StepCond
  run : String
  args : String := ""
deriving DecidableEq, Repr

/-- Whether a step's condition lets it execute, given whether some earlier
executed step of the job has failed. -/
def condHolds : StepCond → Bool → Bool
  | StepCond.dflt, failedSoFar => !failedSoFar
  | StepCond.alwaysCond, _ => true
  | StepCond.successCond, failedSoFar => !failedSoFar
  | StepCond.failureCond, failedSoFar => failedSoFar

/-- Run the steps of a job in order.  `env i` is the exit code the `i`-th
step would produce if executed.  Returns the indices of the executed steps
and whether any executed step exited non-zero (which makes the job fail). -/
def execSteps (env : Nat → Nat) : List Step → Nat → Bool → List Nat × Bool
  | [], _, failedSoFar => ([], failedSoFar)
  | s :: rest, i, failedSoFar =>
    if condHolds s.cond failedSoFar then
      let failedNow := failedSoFar || (env i != 0)
      let r := execSteps env rest (i + 1) failedNow
      (i :: r.1, r.2)
    else
      execSteps env rest (i + 1) failedSoFar

/-- Indices of the steps that actually execute in a run of the job. -/
def executedSteps (steps : List Step) (env : Nat → Nat) : List Nat :=
  (execSteps env steps 0 false).1

/-- A job's final status is failure exactly when some executed step exited
non-zero. -/
def jobFails (steps : List Step) (env : Nat → Nat) : Bool :=
  (execSteps env steps 0 false).2

/-! ## The branch-behind check of the pr-check job

`git rev-list --count HEAD..origin/master | grep -w "0"` prints the count
of commits on origin/master that are not on HEAD in decimal and greps the
single output line for `0` as a whole word; the step's exit code is grep's. -/

/-- A word constituent character in grep's sense. -/
def isWordChar (c : Char) : Bool := c.isAlphanum || c == '_'

/-- The character for a decimal digit. -/
def digitChar (d : Nat) : Char := Char.ofNat (48 + d)

/-- Digits of `n`, most significant first, empty for `n = 0`; the first
argument is recursion fuel (any fuel `≥ n` is enough). -/
def decReprAux : Nat → Nat → List Char
  | 0, _ => []
  | fuel + 1, n =>
    if n = 0 then [] else decReprAux fuel (n / 10) ++ [digitChar (n % 10)]

/-- The decimal representation `git rev-list --count` prints, most
significant digit first (`0` prints as "0"). -/
def decRepr (n : Nat) : List Char :=
  if n = 0 then ['0'] else decReprAux n n

/-- Scan for an occurrence of the pattern `0` delimited by word boundaries,
as `grep -w "0"` matches it.  `prevIsWord` says whether the character just
before the current position is a word constituent. -/
def wordHit0Aux : Bool → List Char → Bool
  | _, [] => false
  | prevIsWord, c :: rest =>
    (c == '0' && !prevIsWord &&
      !(match rest with
        | [] => false
        | d :: _ => isWordChar d))
    || wordHit0Aux (isWordChar c) rest

/-- Whether `grep -w "0"` matches the line. -/
def wordHit0 (l : List Char) : Bool := wordHit0Aux false l

/-- Exit code of the branch-behind step as a function of the commit count:
grep exits 0 on a match and 1 otherwise. -/
def branchCheckExit (count : Nat) : Nat :=
  if wordHit0 (decRepr count) then 0 else 1

/-! ## The two workflow documents of `.github/workflows/pr.yml` -/

/-- How a workflow is triggered: `on: pull_request` restricted to target
branches, or `on: push` with a `paths-ignore` list. -/
inductive Trigger where
  | pullRequestTo (branches : List String)
  | pushIgnoring (pathsIgnore : List String)
deriving DecidableEq, Repr

/-- A job: its id and its step list. -/
structure JobSpec where
  id : String
  steps : List Step
deriving DecidableEq, Repr

/-- A workflow document: name, trigger, jobs. -/
structure Workflow where
  name : String
  trigger : Trigger
  jobs : List JobSpec
deriving DecidableEq, Repr

/-- Steps of the `pr-check` job of the `PR` workflow. -/
def prCheckSteps : List Step :=
  [ { name := "", cond := StepCond.dflt, run := "actions/checkout@v1" },
    { name := "Check if the branch is behind the master", cond := StepCond.dflt,
      run := "git rev-list --count HEAD..origin/master | grep -w \"0\"" },
    { name := "Generate coverage report", cond := StepCond.dflt,
      run := "pip3 install -U pytest-cov\npytest -m \"not slow\" --cov=./ --cov-report=xml" },
    { name := "Upload coverage to Codecov", cond := StepCond.dflt,
      run := "pip3 install -U codecov\ncodecov -t $\x7b\x7b secrets.CODECOV_TOKEN \x7d\x7d" } ]

/-- The import smoke-test step of the `test_requirements` job. -/
def importStep : Step :=
  { name := "Run \x27import batchflow\x27 in installed environemnt", cond := StepCond.dflt,
    run := "python -c \x27import batchflow\x27" }

/-- The named-subset pytest step of the `test_requirements` job. -/
def basicTestsStep : Step :=
  { name := "Run basic tests", cond := StepCond.dflt,
    run := "cd batchflow/tests\npytest --disable-pytest-warnings -v dataset_test.py filesindex_test.py datasetindex_test.py" }

/-- Steps of the `test_requirements` job of the `PR` workflow. -/
def testRequirementsSteps : List Step :=
  [ { name := "", cond := StepCond.dflt, run := "actions/checkout@v1" },
    { name := "Set up Python $\x7b\x7b matrix.python-version \x7d\x7d on $\x7b\x7b matrix.os \x7d\x7d",
      cond := StepCond.dflt, run := "actions/setup-python@v1" },
    { name := "Install batchflow requirements", cond := StepCond.dflt,
      run := "pip install -r requirements.txt\npip install pytest" },
    importStep,
    basicTestsStep ]

/-- The `args` input of the success-guarded Slack step (braces written via
escapes). -/
def slackSuccessArgs : String :=
  "\x7b\\\"channel\\\": \\\"#commits\\\", \\\"attachments\\\": [\x7b\\\"color\\\": \\\"good\\\", \\\"text\\\": \\\"<$\x7b\x7b github.event.commits[0].url \x7d\x7d|$\x7b\x7b github.repository \x7d\x7d: *$\x7b\x7b github.event.commits[0].message \x7d\x7d*> by $\x7b\x7b github.event.commits[0].author.name \x7d\x7d\\n<$\x7b\x7b github.event.commits[0].url \x7d\x7d/checks|Workflow $\x7b\x7b github.workflow \x7d\x7d>: `$\x7b\x7b job.status \x7d\x7d`\\\"\x7d]\x7d"

/-- The `args` input of the failure-guarded Slack step. -/
def slackFailureArgs : String :=
  "\x7b\\\"channel\\\": \\\"#commits\\\", \\\"attachments\\\": [\x7b\\\"color\\\": \\\"danger\\\", \\\"text\\\": \\\"<$\x7b\x7b github.event.commits[0].url \x7d\x7d|$\x7b\x7b github.repository \x7d\x7d: *$\x7b\x7b github.event.commits[0].message \x7d\x7d*> by $\x7b\x7b github.event.commits[0].author.name \x7d\x7d\\n<$\x7b\x7b github.event.commits[0].url \x7d\x7d/checks|Workflow $\x7b\x7b github.workflow \x7d\x7d>: `$\x7b\x7b job.status \x7d\x7d`\\\"\x7d]\x7d"

/-- The `Check pylint` step of the `lint-test` job (its name carries a
trailing space in the YAML). -/
def checkPylintStep : Step :=
  { name := "Check pylint ", cond := StepCond.dflt,
    run := "pylint -rn --rcfile pylintrc batchflow" }

/-- The `Run tests` step of the `lint-test` job, guarded by `if: always()`. -/
def runTestsStep : Step :=
  { name := "Run tests", cond := StepCond.alwaysCond,
    run := "pytest -m \"not slow\" --disable-pytest-warnings -v" }

/-- The success-guarded Slack notification step of the `lint-test` job. -/
def slackSuccessStep : Step :=
  { name := "Slack notification", cond := StepCond.successCond,
    run := "pullreminders/slack-action@master", args := slackSuccessArgs }

/-- The failure-guarded Slack notification step of the `lint-test` job. -/
def slackFailureStep : Step :=
  { name := "Slack notification", cond := StepCond.failureCond,
    run := "pullreminders/slack-action@master", args := slackFailureArgs }

/-- Steps of the `lint-test` job of the `status` workflow. -/
def lintTestSteps : List Step :=
  [ { name := "", cond := StepCond.dflt, run := "actions/checkout@v1" },
    { name := "Update pylint", cond := StepCond.dflt, run := "pip3 install -U pylint" },
    checkPylintStep,
    runTestsStep,
    slackSuccessStep,
    slackFailureStep ]

/-- The `PR` workflow: triggered by pull requests targeting master. -/
def prWorkflow : Workflow :=
  { name := "PR", trigger := Trigger.pullRequestTo ["master"],
    jobs := [ { id := "pr-check", steps := prCheckSteps },
              { id := "test_requirements", steps := testRequirementsSteps } ] }

/-- The `status` workflow: triggered by pushes, ignoring docs-only paths. -/
def statusWorkflow : Workflow :=
  { name := "status", trigger := Trigger.pushIgnoring ["docs/**"],
    jobs := [ { id := "lint-test", steps := lintTestSteps } ] }

/-- The matrix of the `test_requirements` job: three operating systems and
two Python versions. -/
def testRequirementsMatrix : List (String × String) :=
  (["ubuntu-latest", "macos-latest", "windows-latest"].map fun os =>
    (["3.6", "3.7"].map fun py => (os, py))).flatten

/-! ## Substring and trigger helpers -/

/-- Whether `pat` occurs at the head of `s`. -/
def leadsWith : List Char → List Char → Bool
  | [], _ => true
  | _ :: _, [] => false
  | p :: ps, c :: cs => p == c && leadsWith ps cs

/-- Naive substring scan: whether `pat` occurs somewhere in `s`. -/
def occursIn (pat : List Char) : List Char → Bool
  | [] => leadsWith pat []
  | c :: cs => leadsWith pat (c :: cs) || occursIn pat cs

/-- A step whose command runs pylint. -/
def stepRunsPylint (s : Step) : Bool := occursIn "pylint".toList s.run.toList

/-- A step whose command runs the pytest test runner. -/
def stepRunsPytest (s : Step) : Bool := occursIn "pytest".toList s.run.toList

/-- Whether some step of the workflow satisfies the predicate. -/
def hasStep (w : Workflow) (p : Step → Bool) : Bool :=
  w.jobs.any fun j => j.steps.any p

/-- Whether a workflow is triggered by a pull-request event targeting the
given base branch. -/
def triggeredByPullRequest (w : Workflow) (base : String) : Bool :=
  match w.trigger with
  | Trigger.pullRequestTo bs => bs.contains base
  | Trigger.pushIgnoring _ => false

/-- Whether a changed path is matched by an ignore pattern; a pattern of
the shape `dir/**` matches everything underneath `dir`, any other pattern
matches only the identical path. -/
def globMatch (pat p : String) : Bool :=
  if leadsWith ['*', '*', '/'] pat.toList.reverse then
    leadsWith pat.toList.dropLast.dropLast p.toList
  else pat.toList == p.toList

/-- Semantics of `on: push` with `paths-ignore`: the workflow runs on a
push exactly when some changed path is matched by no ignore pattern. -/
def pushTriggers (w : Workflow) (changedPaths : List String) : Bool :=
  match w.trigger with
  | Trigger.pullRequestTo _ => false
  | Trigger.pushIgnoring pats =>
    changedPaths.any fun p => !(pats.any fun pat => globMatch pat p)

/-- The exit-code environment of the `pr-check` job: the branch-behind step
(index 1) exits with grep's code for the given commit count; every other
step's exit code comes from `env`. -/
def prCheckEnv (count : Nat) (env : Nat → Nat) : Nat → Nat :=
  fun i => if i = 1 then branchCheckExit count else env i

/-- Exit-code environment where every step succeeds. -/
def envAllOk : Nat → Nat := fun _ => 0

/-- Exit-code environment where exactly step `k` exits 2. -/
def envFailAt (k : Nat) : Nat → Nat := fun i => if i = k then 2 else 0

/-! ## The Research domain model (modelled from the spec)

The `batchflow.research` classes the notebook drives (`Option`, the `*`
domain product, `Research.update_domain`, `Research.load_results`) are not
under the visible sources; the definitions below are modelled from the
spec's description of them. -/

/-- A candidate value of an option: a model class name or a number, which
covers the notebook's `Option('model', [VGG7, VGG16, ResNet18])` and
`Option('n_epochs', [1])`. -/
inductive RVal where
  | vstr (s : String)
  | vnat (n : Nat)
deriving DecidableEq, Repr

/-- Modelled from the spec: `batchflow.research.Option` (implementation not
under the visible sources) pairs a name with a sequence of candidate
values.  Called `OptionSpec` because `Option` is taken in Lean. -/
structure OptionSpec where
  name : String
  values : List RVal
deriving DecidableEq, Repr

/-- Modelled from the spec: a domain is a cross-product of options (built
with `*` in the notebook API); represented by its list of factor options. -/
abbrev Domain := List OptionSpec

/-- Modelled from the spec: the `*` of the notebook API on domains. -/
def mulDomain (a b : Domain) : Domain := a ++ b

/-- A configuration: one candidate value chosen per option name. -/
abbrev Config := List (String × RVal)

/-- Modelled from the spec: the configurations a domain enumerates — the
cross-product of its options' value sequences, each configuration driving
one pipeline run. -/
def configsOf : Domain → List Config
  | [] => [[]]
  | o :: rest => o.values.flatMap fun v => (configsOf rest).map fun c => (o.name, v) :: c

/-- One row of the research results table: the configuration it came from
and the `update` column — the number of domain updates performed before
that configuration was generated. -/
structure ResultRow where
  config : Config
  update : Nat
deriving DecidableEq, Repr

/-- The rows produced by running the pipelines over a domain after `u`
domain updates have been applied. -/
def rowsOf (u : Nat) (d : Domain) : List ResultRow :=
  (configsOf d).map fun c => { config := c, update := u }

/-- Modelled from the spec: the research run loop under
`update_domain(cb, each=last, n_updates)` (the `Research` class is not
under the visible sources).  The loop runs every configuration of the
current domain, appends the rows to the accumulated results and, while
update fuel remains, applies the callback to the accumulated results: a
returned domain replaces the current one, `none` stops the updates.
Returns the accumulated rows and the number of updates applied;
`fuel` is `n_updates` and `u` counts the updates applied so far. -/
def researchRun (cb : List ResultRow → Option Domain) :
    Nat → Nat → List ResultRow → Domain → List ResultRow × Nat
  | 0, u, acc, dom => (acc ++ rowsOf u dom, 0)
  | fuel + 1, u, acc, dom =>
    let acc2 := acc ++ rowsOf u dom
    match cb acc2 with
    | none => (acc2, 0)
    | some d2 =>
      let r := researchRun cb fuel (u + 1) acc2 d2
      (r.1, r.2 + 1)

/-- The sequence of domains the loop visits, each paired with the number of
updates applied before it came in force. -/
def domainTrace (cb : List ResultRow → Option Domain) :
    Nat → Nat → List ResultRow → Domain → List (Nat × Domain)
  | 0, u, _, dom => [(u, dom)]
  | fuel + 1, u, acc, dom =>
    let acc2 := acc ++ rowsOf u dom
    match cb acc2 with
    | none => [(u, dom)]
    | some d2 => (u, dom) :: domainTrace cb fuel (u + 1) acc2 d2

/-- Modelled from the spec: `research.load_results(names=..., update=k)`
selects the rows whose `update` column equals `k`. -/
def load_results (rows : List ResultRow) (upd : Nat) : List ResultRow :=
  rows.filter fun r => r.update == upd

/-- The notebook's `Option('model', [VGG7, VGG16, ResNet18])`. -/
def modelOption : OptionSpec :=
  { name := "model",
    values := [RVal.vstr "VGG7", RVal.vstr "VGG16", RVal.vstr "ResNet18"] }

/-- The notebook's `Option('n_epochs', [1])`. -/
def nEpochsOption : OptionSpec := { name := "n_epochs", values := [RVal.vnat 1] }

/-- The notebook's initial domain:
`Option('model', [VGG7, VGG16, ResNet18]) * Option('n_epochs', [1])`. -/
def notebookDomain : Domain := mulDomain [modelOption] [nEpochsOption]

/-- The replacement domain the notebook's callback builds (with the best
model, here VGG16 for concreteness):
`Option('model', [best_model]) * Option('n_epochs', [2])`. -/
def updatedDomain : Domain :=
  mulDomain
    [ { name := "model", values := [RVal.vstr "VGG16"] } ]
    [ { name := "n_epochs", values := [RVal.vnat 2] } ]

/-- A concrete update callback that always proposes `updatedDomain`. -/
def cbSome : List ResultRow → Option Domain := fun _ => some updatedDomain

/-- A concrete update callback that immediately signals termination. -/
def cbNone : List ResultRow → Option Domain := fun _ => none

/-- A sample row of the results table after one domain update. -/
def rowExample : ResultRow :=
  { config := [("model", RVal.vstr "VGG16"), ("n_epochs", RVal.vnat 2)], update := 1 }

/-! ## Helper lemmas: job semantics -/

theorem execSteps_failed (env : Nat → Nat) (steps : List Step) (i : Nat) :
    (execSteps env steps i true).2 = true := by
  induction steps generalizing i with
  | nil => rfl
  | cons s rest ih =>
    simp only [execSteps]
    cases h : condHolds s.cond true <;> simp [h, ih]

theorem execSteps_dflt_fail (env : Nat → Nat) (steps : List Step) (base : Nat)
    (hall : ∀ s ∈ steps, s.cond = StepCond.dflt) (j : Nat) (hj : j < steps.length)
    (hf : env (base + j) ≠ 0) : (execSteps env steps base false).2 = true := by
  induction steps generalizing base j with
  | nil => simp at hj
  | cons s rest ih =>
    have hs : s.cond = StepCond.dflt := hall s (List.mem_cons_self s rest)
    by_cases h0 : env base = 0
    · cases j with
      | zero => exact absurd h0 (by simpa using hf)
      | succ j' =>
        have hrec := ih (base + 1) (fun t ht => hall t (List.mem_cons_of_mem s ht)) j'
          (Nat.lt_of_succ_lt_succ (by simpa using hj))
          (by have e : base + 1 + j' = base + (j' + 1) := by omega
              rw [e]; exact hf)
        simp [execSteps, hs, condHolds, h0, hrec]
    · have hb : (env base != 0) = true := by simpa [bne_iff_ne] using h0
      simp [execSteps, hs, condHolds, hb, execSteps_failed]

theorem lintTest_fails_pylint (env : Nat → Nat) (h : env 2 ≠ 0) :
    jobFails lintTestSteps env = true := by
  have hb2 : (env 2 != 0) = true := by simpa [bne_iff_ne] using h
  cases hb0 : (env 0 != 0) <;> cases hb1 : (env 1 != 0) <;>
    simp [jobFails, execSteps, condHolds, lintTestSteps, checkPylintStep, runTestsStep,
      slackSuccessStep, slackFailureStep, hb0, hb1, hb2]

theorem lintTest_fails_tests (env : Nat → Nat) (h : env 3 ≠ 0) :
    jobFails lintTestSteps env = true := by
  have hb3 : (env 3 != 0) = true := by simpa [bne_iff_ne] using h
  cases hb0 : (env 0 != 0) <;> cases hb1 : (env 1 != 0) <;> cases hb2 : (env 2 != 0) <;>
    simp [jobFails, execSteps, condHolds, lintTestSteps, checkPylintStep, runTestsStep,
      slackSuccessStep, slackFailureStep, hb0, hb1, hb2, hb3]

/-! ## Helper lemmas: the Research model -/

/-! ## Helper lemmas: the grep word-match model -/

theorem wordHit0Aux_all_word (l : List Char) (hall : ∀ c ∈ l, isWordChar c = true) :
    ∀ prevIsWord : Bool, wordHit0Aux prevIsWord l = true ↔ (prevIsWord = false ∧ l = ['0']) := by
  induction l with
  | nil => intro prev; simp [wordHit0Aux]
  | cons c rest ih =>
    intro prev
    have hc : isWordChar c = true := hall c (List.mem_cons_self c rest)
    have hrest : ∀ d ∈ rest, isWordChar d = true :=
      fun d hd => hall d (List.mem_cons_of_mem c hd)
    cases rest with
    | nil =>
      simp only [wordHit0Aux, Bool.or_false]
      constructor
      · intro h
        have h1 : (c == '0') = true := by
          cases hcc : (c == '0') <;> simp [hcc] at h ⊢
        have h2 : prev = false := by
          cases hp : prev <;> simp [hp, h1] at h ⊢
        exact ⟨h2, by simpa using (by exact (beq_iff_eq.mp h1))⟩
      · rintro ⟨hp, hl⟩
        have : c = '0' := by simpa using hl
        subst this; subst hp; rfl
    | cons d rest' =>
      have hd : isWordChar d = true := hrest d (List.mem_cons_self d rest')
      have hno : wordHit0Aux true (d :: rest') = false := by
        cases hval : wordHit0Aux true (d :: rest') with
        | false => rfl
        | true =>
          have := (ih hrest true).mp hval
          simp at this
      have hgoal : wordHit0Aux prev (c :: d :: rest') =
          ((c == '0' && !prev && !(isWordChar d)) || wordHit0Aux (isWordChar c) (d :: rest')) :=
        rfl
      rw [hgoal, hc, hno, hd]
      simp

theorem digitChar_word (d : Nat) (hd : d < 10) : isWordChar (digitChar d) = true := by
  interval_cases d <;> decide

theorem decReprAux_all_word (fuel : Nat) :
    ∀ n, ∀ c ∈ decReprAux fuel n, isWordChar c = true := by
  induction fuel with
  | zero => intro n c hc; simp [decReprAux] at hc
  | succ fuel ih =>
    intro n c hc
    by_cases h : n = 0
    · rw [decReprAux, if_pos h] at hc
      simp at hc
    · rw [decReprAux, if_neg h] at hc
      rcases List.mem_append.mp hc with hl | hr
      · exact ih (n / 10) c hl
      · have : c = digitChar (n % 10) := by simpa using hr
        subst this
        exact digitChar_word (n % 10) (Nat.mod_lt n (by norm_num))

theorem decRepr_all_word (n : Nat) : ∀ c ∈ decRepr n, isWordChar c = true := by
  intro c hc
  by_cases h : n = 0
  · rw [decRepr, if_pos h] at hc
    simp at hc
    subst hc; decide
  · rw [decRepr, if_neg h] at hc
    exact decReprAux_all_word n n c hc

theorem digitChar_eq_zero_iff (d : Nat) (hd : d < 10) : digitChar d = '0' ↔ d = 0 := by
  interval_cases d <;> decide

theorem decReprAux_ne_nil (fuel n : Nat) (hn : n ≠ 0) (hf : 0 < fuel) :
    decReprAux fuel n ≠ [] := by
  cases fuel with
  | zero => omega
  | succ fuel => rw [decReprAux, if_neg hn]; simp

theorem wordHit0_decRepr (n : Nat) : wordHit0 (decRepr n) = true ↔ n = 0 := by
  constructor
  · intro h
    have hmem := (wordHit0Aux_all_word (decRepr n) (decRepr_all_word n) false).mp h
    have hl : decRepr n = ['0'] := hmem.2
    by_contra hn
    rw [decRepr, if_neg hn] at hl
    cases n with
    | zero => exact hn rfl
    | succ m =>
      rw [decReprAux, if_neg hn] at hl
      have hsplit : decReprAux m ((m + 1) / 10) = [] ∧ digitChar ((m + 1) % 10) = '0' := by
        rcases List.append_eq_cons_iff.mp hl with ⟨h1, h2⟩ | ⟨as, h1, h2⟩
        · exact ⟨h1, by simpa using h2⟩
        · exact absurd h2.symm (by simp)
      have hmod : (m + 1) % 10 = 0 :=
        (digitChar_eq_zero_iff _ (Nat.mod_lt _ (by norm_num))).mp hsplit.2
      have hdiv : (m + 1) / 10 = 0 := by
        by_contra hdv
        have hm : 0 < m := by omega
        exact decReprAux_ne_nil m ((m + 1) / 10) hdv hm hsplit.1
      omega
  · intro h; subst h; decide

theorem branchCheckExit_eq_zero (count : Nat) : branchCheckExit count = 0 ↔ count = 0 := by
  constructor
  · intro h
    by_contra hn
    have hw : wordHit0 (decRepr count) = false := by
      cases hv : wordHit0 (decRepr count) with
      | false => rfl
      | true => exact absurd ((wordHit0_decRepr count).mp hv) hn
    rw [branchCheckExit, hw] at h
    simp at h
  · intro h; subst h; decide

/-! ## Helper lemmas: the Research model -/

theorem flatMap_singleton_map {α β : Type} (l : List α) (f : α → β) :
    (l.flatMap fun x => [f x]) = l.map f := by
  induction l with
  | nil => rfl
  | cons a t ih => simp [List.flatMap_cons, ih]

theorem configsOf_length (d : Domain) :
    (configsOf d).length = (d.map fun o => o.values.length).prod := by
  induction d with
  | nil => simp [configsOf]
  | cons o rest ih =>
    simp only [configsOf, List.length_flatMap, List.map_map, List.map_cons, List.prod_cons]
    have : (fun v => ((configsOf rest).map fun c => (o.name, v) :: c).length) ∘ id =
        fun _ : RVal => (configsOf rest).length := by
      funext v; simp
    simp only [Function.comp_def, List.length_map]
    rw [List.map_const', List.sum_replicate, smul_eq_mul, ih]

theorem researchRun_fst_eq_trace (cb : List ResultRow → Option Domain) (fuel : Nat) :
    ∀ (u : Nat) (acc : List ResultRow) (dom : Domain),
      (researchRun cb fuel u acc dom).1 =
        acc ++ (domainTrace cb fuel u acc dom).flatMap fun p => rowsOf p.1 p.2 := by
  induction fuel with
  | zero => intro u acc dom; simp [researchRun, domainTrace]
  | succ fuel ih =>
    intro u acc dom
    simp only [researchRun, domainTrace]
    cases h : cb (acc ++ rowsOf u dom) with
    | none => simp
    | some d2 =>
      simp only [List.flatMap_cons]
      rw [ih (u + 1) (acc ++ rowsOf u dom) d2]
      simp [List.append_assoc]

theorem domainTrace_counter (cb : List ResultRow → Option Domain) (fuel : Nat) :
    ∀ (u : Nat) (acc : List ResultRow) (dom : Domain) (i : Nat)
      (h : i < (domainTrace cb fuel u acc dom).length),
      ((domainTrace cb fuel u acc dom).get ⟨i, h⟩).1 = u + i := by
  induction fuel with
  | zero =>
    intro u acc dom i h
    simp only [domainTrace, List.length_cons, List.length_nil] at h
    interval_cases i
    simp [domainTrace]
  | succ fuel ih =>
    intro u acc dom i h
    revert h
    simp only [domainTrace]
    cases hcb : cb (acc ++ rowsOf u dom) with
    | none =>
      intro h
      simp only [List.length_cons, List.length_nil] at h
      interval_cases i
      simp
    | some d2 =>
      intro h
      cases i with
      | zero => simp
      | succ i' =>
        have h' : i' < (domainTrace cb fuel (u + 1) (acc ++ rowsOf u dom) d2).length := by
          simpa using Nat.lt_of_succ_lt_succ h
        have := ih (u + 1) (acc ++ rowsOf u dom) d2 i' h'
        simpa [Nat.add_assoc, Nat.add_comm 1 i'] using this

/-! ## Claim theorems -/

/-- Claim C1: for every run of the Research domain-update loop configured
with an update callback, the each=last cadence and an update count
`n_updates`, the loop terminates: the number of domain updates applied
never exceeds `n_updates`, and as soon as the callback returns `none` the
updates stop — no further update is applied and the results are exactly
those accumulated through the current domain. -/
theorem C1_update_loop_bounded (cb : List ResultRow → Option Domain)
    (n_updates u : Nat) (acc : List ResultRow) (dom : Domain) :
    (researchRun cb n_updates u acc dom).2 ≤ n_updates ∧
    (cb (acc ++ rowsOf u dom) = none →
      (researchRun cb n_updates u acc dom).2 = 0 ∧
      (researchRun cb n_updates u acc dom).1 = acc ++ rowsOf u dom) := by
  induction n_updates generalizing u acc dom with
  | zero => exact ⟨Nat.le_refl 0, fun _ => ⟨rfl, rfl⟩⟩
  | succ n ih =>
    constructor
    · simp only [researchRun]
      cases h : cb (acc ++ rowsOf u dom) with
      | none => simp
      | some d2 =>
        simp only
        have := (ih (u + 1) (acc ++ rowsOf u dom) d2).1
        omega
    · intro hnone
      simp [researchRun, hnone]

/-- Claim C1 witness: with the callback that immediately signals
termination, the loop applies no update at all. -/
theorem C1_update_loop_bounded_witness :
    (researchRun cbNone 1 0 [] notebookDomain).2 ≤ 1 ∧
    (researchRun cbNone 1 0 [] notebookDomain).2 = 0 :=
  ⟨(C1_update_loop_bounded cbNone 1 0 [] notebookDomain).1,
   ((C1_update_loop_bounded cbNone 1 0 [] notebookDomain).2 rfl).1⟩

/-- Claim C4: multiplying two Options yields the Cartesian-product domain:
for value sequences of lengths m and n the domain enumerates exactly m * n
configurations, one per pair of candidate values. -/
theorem C4_option_product (o1 o2 : OptionSpec) :
    (configsOf (mulDomain [o1] [o2])).length = o1.values.length * o2.values.length ∧
    (∀ v1 ∈ o1.values, ∀ v2 ∈ o2.values,
      [(o1.name, v1), (o2.name, v2)] ∈ configsOf (mulDomain [o1] [o2])) ∧
    (∀ c ∈ configsOf (mulDomain [o1] [o2]),
      ∃ v1 ∈ o1.values, ∃ v2 ∈ o2.values, c = [(o1.name, v1), (o2.name, v2)]) := by
  have hpair : configsOf (mulDomain [o1] [o2]) =
      o1.values.flatMap fun v1 => o2.values.map fun v2 => [(o1.name, v1), (o2.name, v2)] := by
    simp [mulDomain, configsOf, flatMap_singleton_map, List.map_map, Function.comp_def]
  refine ⟨?_, ?_, ?_⟩
  · rw [configsOf_length]
    simp [mulDomain]
  · intro v1 h1 v2 h2
    rw [hpair]
    simp only [List.mem_flatMap, List.mem_map]
    exact ⟨v1, h1, v2, h2, rfl⟩
  · intro c hc
    rw [hpair] at hc
    simp only [List.mem_flatMap, List.mem_map] at hc
    obtain ⟨v1, h1, v2, h2, hc⟩ := hc
    exact ⟨v1, h1, v2, h2, hc.symm⟩

/-- Claim C4 witness: the notebook's initial domain
`Option('model', [VGG7, VGG16, ResNet18]) * Option('n_epochs', [1])`
enumerates 3 * 1 configurations, and the VGG7 configuration is one of
them. -/
theorem C4_option_product_witness :
    (configsOf (mulDomain [modelOption] [nEpochsOption])).length = 3 * 1 ∧
    [("model", RVal.vstr "VGG7"), ("n_epochs", RVal.vnat 1)] ∈
      configsOf (mulDomain [modelOption] [nEpochsOption]) :=
  ⟨(C4_option_product modelOption nEpochsOption).1,
   (C4_option_product modelOption nEpochsOption).2.1 (RVal.vstr "VGG7") (by decide)
     (RVal.vnat 1) (by decide)⟩

/-- Claim C5: every row of the results table carries an `update` column
holding the number of domain updates performed before the row's
configuration was generated — the rows are exactly those of the visited
domains, the i-th visited domain is in force after exactly i updates and
tags its rows with i — and `load_results(update=k)` selects exactly the
rows whose counter is k. -/
theorem C5_results_update_column (cb : List ResultRow → Option Domain)
    (n_updates upd : Nat) (dom : Domain) :
    (∀ r ∈ load_results (researchRun cb n_updates 0 [] dom).1 upd, r.update = upd) ∧
    ((researchRun cb n_updates 0 [] dom).1 =
      (domainTrace cb n_updates 0 [] dom).flatMap fun p => rowsOf p.1 p.2) ∧
    (∀ i, ∀ h : i < (domainTrace cb n_updates 0 [] dom).length,
      ((domainTrace cb n_updates 0 [] dom).get ⟨i, h⟩).1 = i) ∧
    (∀ p ∈ domainTrace cb n_updates 0 [] dom, ∀ r ∈ rowsOf p.1 p.2, r.update = p.1) := by
  refine ⟨?_, ?_, ?_, ?_⟩
  · intro r hr
    have hm : r ∈ (researchRun cb n_updates 0 [] dom).1 ∧ r.update = upd := by
      simpa [load_results] using hr
    exact hm.2
  · simpa using researchRun_fst_eq_trace cb n_updates 0 [] dom
  · intro i h
    simpa using domainTrace_counter cb n_updates 0 [] dom i h
  · intro p hp r hr
    simp only [rowsOf, List.mem_map] at hr
    obtain ⟨c, hc, rfl⟩ := hr
    rfl

/-- Claim C5 witness: in a concrete run with one update, the row of the
updated configuration is selected by `update = 1` and carries counter 1,
and the table decomposes along the visited domains. -/
theorem C5_results_update_column_witness :
    rowExample.update = 1 ∧
    ((researchRun cbSome 1 0 [] notebookDomain).1 =
      (domainTrace cbSome 1 0 [] notebookDomain).flatMap fun p => rowsOf p.1 p.2) :=
  ⟨(C5_results_update_column cbSome 1 1 notebookDomain).1 rowExample (by decide),
   (C5_results_update_column cbSome 1 1 notebookDomain).2.1⟩

/-- Claim C2 counterexample: the workflow triggered by pull-request events
targeting master is the `PR` workflow (the `status` workflow is push
triggered), and no step of the `PR` workflow runs pylint — so the
pull-request workflow does not include both a pylint step and a
test-runner step. -/
theorem C2_counterexample_no_pylint :
    triggeredByPullRequest prWorkflow "master" = true ∧
    triggeredByPullRequest statusWorkflow "master" = false ∧
    hasStep prWorkflow stepRunsPylint = false := by decide

/-- Claim C2 amended: for every pull-request event targeting master the
triggered workflow (`PR`) includes a test-runner (pytest) step but no
pylint step; the pylint step lives in the push-triggered `status`
workflow. -/
theorem C2_amended_pr_workflow :
    triggeredByPullRequest prWorkflow "master" = true ∧
    hasStep prWorkflow stepRunsPytest = true ∧
    hasStep prWorkflow stepRunsPylint = false ∧
    hasStep statusWorkflow stepRunsPylint = true := by decide

/-- Claim C3: the branch-behind step of the pr-check job exits non-zero —
failing the job — whenever the count of commits on origin/master not on
HEAD is positive, and exits zero when that count is exactly zero. -/
theorem C3_branch_behind_check (count : Nat) (env : Nat → Nat) :
    (0 < count → jobFails prCheckSteps (prCheckEnv count env) = true) ∧
    (count = 0 → branchCheckExit count = 0) := by
  constructor
  · intro hc
    have hne : branchCheckExit count ≠ 0 := by
      rw [branchCheckExit]
      cases hv : wordHit0 (decRepr count) with
      | true => exact absurd ((wordHit0_decRepr count).mp hv) (by omega)
      | false => simp
    exact execSteps_dflt_fail (prCheckEnv count env) prCheckSteps 0 (by decide) 1 (by decide)
      (by simpa [prCheckEnv] using hne)
  · intro h
    subst h
    decide

/-- Claim C3 witness: with a branch three commits behind the job fails, and
with count zero the grep step exits zero. -/
theorem C3_branch_behind_check_witness :
    jobFails prCheckSteps (prCheckEnv 3 envAllOk) = true ∧ branchCheckExit 0 = 0 :=
  ⟨(C3_branch_behind_check 3 envAllOk).1 (by decide),
   (C3_branch_behind_check 0 envAllOk).2 rfl⟩

/-- Claim C6 counterexample: in the run of lint-test where steps 0–3
succeed but the success-guarded Slack step itself exits non-zero, the job
completes as a failure and BOTH Slack steps have executed — not exactly
one, and the success-guarded one ran although the job failed. -/
theorem C6_counterexample_both_slack :
    jobFails lintTestSteps (envFailAt 4) = true ∧
    4 ∈ executedSteps lintTestSteps (envFailAt 4) ∧
    5 ∈ executedSteps lintTestSteps (envFailAt 4) := by decide

/-- Claim C6 amended: provided the success-guarded Slack step itself exits
zero, every completed run of lint-test executes exactly one of the two
Slack steps — the success-guarded one (whose args carry color `good`) when
the job succeeded, the failure-guarded one (color `danger`) when it
failed. -/
theorem C6_amended_slack_exclusive (env : Nat → Nat) (hs : env 4 = 0) :
    (jobFails lintTestSteps env = false →
      4 ∈ executedSteps lintTestSteps env ∧ 5 ∉ executedSteps lintTestSteps env) ∧
    (jobFails lintTestSteps env = true →
      5 ∈ executedSteps lintTestSteps env ∧ 4 ∉ executedSteps lintTestSteps env) ∧
    occursIn "good".toList slackSuccessStep.args.toList = true ∧
    occursIn "danger".toList slackFailureStep.args.toList = true := by
  have hgood : occursIn "good".toList slackSuccessStep.args.toList = true := by decide
  have hdanger : occursIn "danger".toList slackFailureStep.args.toList = true := by decide
  have hb4 : (env 4 != 0) = false := by simp [hs]
  refine ⟨?_, ?_, hgood, hdanger⟩ <;>
  · cases hb0 : (env 0 != 0) <;> cases hb1 : (env 1 != 0) <;> cases hb2 : (env 2 != 0) <;>
      cases hb3 : (env 3 != 0) <;>
      simp [jobFails, executedSteps, execSteps, condHolds, lintTestSteps, checkPylintStep,
        runTestsStep, slackSuccessStep, slackFailureStep, hb0, hb1, hb2, hb3, hb4]

/-- Claim C6 witness: in the all-success run the success-guarded Slack step
executes and the failure-guarded one does not. -/
theorem C6_amended_slack_exclusive_witness :
    4 ∈ executedSteps lintTestSteps envAllOk ∧ 5 ∉ executedSteps lintTestSteps envAllOk :=
  (C6_amended_slack_exclusive envAllOk rfl).1 (by decide)

/-- Claim C7: the test_requirements matrix has the 3 × 2 = 6 declared
OS/Python cells, and in each a failure of the `import batchflow`
smoke-test step or of the named pytest step (dataset_test.py,
filesindex_test.py, datasetindex_test.py) fails the job. -/
theorem C7_smoke_test_matrix (env : Nat → Nat) (h : env 3 ≠ 0 ∨ env 4 ≠ 0) :
    jobFails testRequirementsSteps env = true ∧
    testRequirementsMatrix.length = 6 ∧
    (∀ cell ∈ testRequirementsMatrix,
      cell.1 ∈ ["ubuntu-latest", "macos-latest", "windows-latest"] ∧
      cell.2 ∈ ["3.6", "3.7"]) ∧
    testRequirementsSteps.get ⟨3, by decide⟩ = importStep ∧
    testRequirementsSteps.get ⟨4, by decide⟩ = basicTestsStep ∧
    occursIn "dataset_test.py".toList basicTestsStep.run.toList = true ∧
    occursIn "filesindex_test.py".toList basicTestsStep.run.toList = true ∧
    occursIn "datasetindex_test.py".toList basicTestsStep.run.toList = true := by
  refine ⟨?_, by decide, by decide, rfl, rfl, by decide, by decide, by decide⟩
  rcases h with h | h
  · exact execSteps_dflt_fail env testRequirementsSteps 0 (by decide) 3 (by decide) h
  · exact execSteps_dflt_fail env testRequirementsSteps 0 (by decide) 4 (by decide) h

/-- Claim C7 witness: a failing import step fails the job, and the matrix
has six cells. -/
theorem C7_smoke_test_matrix_witness :
    jobFails testRequirementsSteps (envFailAt 3) = true ∧
    testRequirementsMatrix.length = 6 :=
  ⟨(C7_smoke_test_matrix (envFailAt 3) (Or.inl (by decide))).1,
   (C7_smoke_test_matrix (envFailAt 3) (Or.inl (by decide))).2.1⟩

/-- Claim C8: a non-zero exit from the pylint step or the pytest step of
lint-test, or from the import step or the basic-tests step of
test_requirements, makes the corresponding job's final status failure. -/
theorem C8_nonzero_exit_fails_job (envL envT : Nat → Nat)
    (hL : envL 2 ≠ 0 ∨ envL 3 ≠ 0) (hT : envT 3 ≠ 0 ∨ envT 4 ≠ 0) :
    jobFails lintTestSteps envL = true ∧ jobFails testRequirementsSteps envT = true := by
  constructor
  · rcases hL with h | h
    · exact lintTest_fails_pylint envL h
    · exact lintTest_fails_tests envL h
  · rcases hT with h | h
    · exact execSteps_dflt_fail envT testRequirementsSteps 0 (by decide) 3 (by decide) h
    · exact execSteps_dflt_fail envT testRequirementsSteps 0 (by decide) 4 (by decide) h

/-- Claim C8 witness: a failing pylint step fails lint-test and a
failing import step fails test_requirements. -/
theorem C8_nonzero_exit_fails_job_witness :
    jobFails lintTestSteps (envFailAt 2) = true ∧
    jobFails testRequirementsSteps (envFailAt 3) = true :=
  C8_nonzero_exit_fails_job (envFailAt 2) (envFailAt 3) (Or.inl (by decide))
    (Or.inl (by decide))

/-- Claim C9: the `Run tests` step of lint-test is guarded by
`if: always()`, so it executes even when the preceding pylint step exits
non-zero — the lint failure fails the job but never skips the tests. -/
theorem C9_tests_run_despite_lint_failure (env : Nat → Nat) (h : env 2 ≠ 0) :
    3 ∈ executedSteps lintTestSteps env ∧
    jobFails lintTestSteps env = true ∧
    lintTestSteps.get ⟨3, by decide⟩ = runTestsStep ∧
    runTestsStep.cond = StepCond.alwaysCond := by
  refine ⟨?_, lintTest_fails_pylint env h, rfl, rfl⟩
  have hb2 : (env 2 != 0) = true := by simpa [bne_iff_ne] using h
  cases hb0 : (env 0 != 0) <;> cases hb1 : (env 1 != 0) <;>
    simp [executedSteps, execSteps, condHolds, lintTestSteps, checkPylintStep, runTestsStep,
      slackSuccessStep, slackFailureStep, hb0, hb1, hb2]

/-- Claim C9 witness: with only the pylint step failing, the tests step
still executes and the job fails. -/
theorem C9_tests_run_despite_lint_failure_witness :
    3 ∈ executedSteps lintTestSteps (envFailAt 2) ∧
    jobFails lintTestSteps (envFailAt 2) = true ∧
    lintTestSteps.get ⟨3, by decide⟩ = runTestsStep ∧
    runTestsStep.cond = StepCond.alwaysCond :=
  C9_tests_run_despite_lint_failure (envFailAt 2) (by decide)

/-- Claim C10: for every push event whose changed paths all lie under
`docs/**`, the paths-ignore filter of the `status` workflow keeps it — and
so the lint-test job and all its steps — from running. -/
theorem C10_docs_only_push_not_triggered (changed : List String)
    (h : ∀ p ∈ changed, globMatch "docs/**" p = true) :
    pushTriggers statusWorkflow changed = false ∧
    statusWorkflow.trigger = Trigger.pushIgnoring ["docs/**"] := by
  refine ⟨?_, rfl⟩
  simp only [pushTriggers, statusWorkflow]
  rw [List.any_eq_false]
  intro p hp
  simp [h p hp]

/-- Claim C10 witness: a push touching only `docs/index.rst` does not
trigger the `status` workflow. -/
theorem C10_docs_only_push_not_triggered_witness :
    pushTriggers statusWorkflow ["docs/index.rst"] = false ∧
    statusWorkflow.trigger = Trigger.pushIgnoring ["docs/**"] :=
  C10_docs_only_push_not_triggered ["docs/index.rst"] (by decide)
